import Mathlib

/-!
Verification development for the core runtime of the chevrotain 0.12 parsing
engine (file `recognizer_public.ts` and the gast clone visitor of
`grammar/gast.ts`).

The embedding translates the relevant TypeScript methods of the `Parser`
class into pure Lean functions over an explicit parser-state record.
JavaScript exceptions become `Except` results, mutation becomes state
passing, and the two potentially diverging loops (`findReSyncTokenType`,
`reSyncTo`) are written with an explicit fuel bound chosen large enough to
cover the whole remaining input plus the virtual EOF position; a `none`
result of those loops corresponds to divergence of the original loop.

External collaborators that are not part of the translated source (the
follow-set cache contents computed by `grammar/follow.ts`, the
`NextAfterTokenWalker` of `grammar/interpreter.ts`, the overridable
`canTokenTypeBeInsertedInRecovery` method) are abstracted as fields of a
`ParserEnv` record.  `instanceof` on token classes is modelled as equality
of token-type ids, with `EOFTypeId` the distinguished id of the `EOF`
token class.
-/

namespace Chevrotain

/-- Distinguished token-type id of the EOF token class. -/
def EOFTypeId : Nat := 0

/-- Model of a chevrotain Token: its class (token type id), image and the
`isInsertedInRecovery` flag set by single-token-insertion recovery. -/
structure Token where
  ttype : Nat
  image : String
  isInsertedInRecovery : Bool := false
deriving Repr, DecidableEq

/-- `tok instanceof TokClass`, modelled as equality of token type ids. -/
def isInstanceOf (t : Token) (tokClass : Nat) : Bool :=
  t.ttype == tokClass

/-- `new EOF()`: a freshly constructed EOF sentinel token. -/
def freshEOF : Token := { ttype := EOFTypeId, image := "" }

/-- The four recognition exception kinds of `exceptions_public.ts`. -/
inductive RecogKind where
  | mismatchedToken
  | noViableAlt
  | earlyExit
  | notAllInputParsed
deriving Repr, DecidableEq

/-- The `context` attached to a saved recognition exception by `SAVE_ERROR`. -/
structure ErrContext where
  ruleStack : List String
  ruleOccurrenceStack : List Nat
deriving Repr, DecidableEq

/-- A recognition exception value. -/
structure RecogException where
  kind : RecogKind
  message : String
  token : Token
  context : Option ErrContext := none
  resyncedTokens : List Token := []
deriving Repr, DecidableEq

/-- Every JavaScript exception the translated code can raise: a recognition
exception, the internal `InRuleRecoveryException`, or any other error. -/
inductive ParseErr where
  | recog : RecogException → ParseErr
  | inRuleRecovery : ParseErr
  | other : String → ParseErr
deriving Repr, DecidableEq

/-- `exceptions.isRecognitionException`. -/
def isRecognitionException : ParseErr → Bool
  | .recog _ => true
  | _ => false

/-- `e instanceof exceptions.MismatchedTokenException`. -/
def isMismatchedTokenException : ParseErr → Bool
  | .recog e => e.kind == RecogKind.mismatchedToken
  | _ => false

/-- The per-instance mutable runtime state of a `Parser`.  JS arrays are
lists with `push` appending at the end (index 0 is the array's head). -/
structure PState where
  input : List Token
  inputIdx : Int := -1
  errors : List RecogException := []
  ruleStack : List String := []
  ruleOccurrenceStack : List Nat := []
  isBackTrackingStack : List Nat := []
  savedTokenIdx : Int := -1
deriving Repr, DecidableEq

/-- Identifies a follow set in the re-sync follow cache: either the
sentinel `EOF_FOLLOW_KEY` or a `(ruleName, idxInCallingRule, inRule)`
triple (`IFollowKey`). -/
inductive FollowKey where
  | eofKey
  | key (ruleName : String) (idxInCallingRule : Nat) (inRule : String)
deriving Repr, DecidableEq

/-- Configuration plus the external collaborators of the parser runtime:
`recoveryEnabled` from `IParserConfig`; `resyncFollows` is the content of
the per-class re-sync FOLLOW cache (computed in `grammar/follow.ts`, not
part of the translated source); `followsForInRuleRecovery` abstracts
`getNextPossibleTokenTypes` (a `NextAfterTokenWalker` over the GAST, also
external) as a function of the grammar path; `canInsert` abstracts the
overridable method `canTokenTypeBeInsertedInRecovery` (default `true`). -/
structure ParserEnv where
  recoveryEnabled : Bool
  resyncFollows : String → Nat → String → List Nat
  followsForInRuleRecovery : List String → List Nat → Nat → Nat → List Nat
  canInsert : Nat → Bool := fun _ => true

/-- `LA(howMuch)`: total lookahead; beyond the end of input a fresh EOF
token is returned. -/
def LA (s : PState) (howMuch : Nat) : Token :=
  if (s.input.length : Int) ≤ s.inputIdx + howMuch then
    freshEOF
  else
    s.input.getD (s.inputIdx + howMuch).toNat freshEOF

/-- `consumeToken()`: advance the input index. -/
def consumeToken (s : PState) : PState :=
  { s with inputIdx := s.inputIdx + 1 }

/-- `SKIP_TOKEN()`: skip one token and return the next one; at the end of
the input it returns a fresh EOF without advancing. -/
def SKIP_TOKEN (s : PState) : Token × PState :=
  if s.inputIdx ≤ (s.input.length : Int) - 2 then
    let s' := consumeToken s
    (LA s' 1, s')
  else
    (freshEOF, s)

/-- `isAtEndOfInput()`: `LA(1) instanceof EOF`. -/
def isAtEndOfInput (s : PState) : Bool :=
  isInstanceOf (LA s 1) EOFTypeId

/-- `isBackTracking()`. -/
def isBackTracking (s : PState) : Bool :=
  !s.isBackTrackingStack.isEmpty

/-- `SAVE_ERROR`: attach the current rule-stack context to a recognition
exception and append it to `errors`; returns the saved exception. -/
def SAVE_ERROR (s : PState) (e : RecogException) : RecogException × PState :=
  let e' := { e with context := some ⟨s.ruleStack, s.ruleOccurrenceStack⟩ }
  (e', { s with errors := s.errors ++ [e'] })

/-- `getMisMatchTokenErrorMessage` (label lookup simplified to the type id). -/
def getMisMatchTokenErrorMessage (expectedTokType : Nat) (actualToken : Token) : String :=
  "Expecting token of type --> " ++ toString expectedTokType ++
    " <-- but found --> " ++ actualToken.image ++ " <--"

/-- `consumeInternalOptimized`: consume `LA(1)` when it is an instance of
the expected class, otherwise save and raise a MismatchedTokenException. -/
def consumeInternalOptimized (expectedTokClass : Nat) (s : PState) :
    Except ParseErr Token × PState :=
  let nextToken := LA s 1
  if isInstanceOf nextToken expectedTokClass then
    (Except.ok nextToken, consumeToken s)
  else
    let msg := getMisMatchTokenErrorMessage expectedTokClass nextToken
    let (e', s') := SAVE_ERROR s
      { kind := .mismatchedToken, message := msg, token := nextToken }
    (Except.error (.recog e'), s')

/-- `getTokenToInsert`: the default fabricated token (`new tokClass(-1, -1)`). -/
def getTokenToInsert (tokClass : Nat) : Token :=
  { ttype := tokClass, image := "" }

/-- `canRecoverWithSingleTokenInsertion`. -/
def canRecoverWithSingleTokenInsertion (env : ParserEnv) (expectedTokType : Nat)
    (follows : List Nat) (s : PState) : Bool :=
  if !env.canInsert expectedTokType then
    false
  else if follows.isEmpty then
    false
  else
    let mismatchedTok := LA s 1
    follows.any (fun possibleFollowsTokType => isInstanceOf mismatchedTok possibleFollowsTokType)

/-- `canRecoverWithSingleTokenDeletion`. -/
def canRecoverWithSingleTokenDeletion (expectedTokType : Nat) (s : PState) : Bool :=
  isInstanceOf (LA s 2) expectedTokType

/-- `tryInRuleRecovery`: insertion first, then deletion, else raise the
internal `InRuleRecoveryException`. -/
def tryInRuleRecovery (env : ParserEnv) (expectedTokType : Nat)
    (follows : List Nat) (s : PState) : Except ParseErr Token × PState :=
  if canRecoverWithSingleTokenInsertion env expectedTokType follows s then
    let tokToInsert := { getTokenToInsert expectedTokType with isInsertedInRecovery := true }
    (Except.ok tokToInsert, s)
  else if canRecoverWithSingleTokenDeletion expectedTokType s then
    let (nextTok, s1) := SKIP_TOKEN s
    (Except.ok nextTok, consumeToken s1)
  else
    (Except.error .inRuleRecovery, s)

/-- `getFollowsForInRuleRecovery`: builds the grammar path from the current
stacks and queries the (external) `NextAfterTokenWalker`. -/
def getFollowsForInRuleRecovery (env : ParserEnv) (tokClass : Nat)
    (tokIdxInRule : Nat) (s : PState) : List Nat :=
  env.followsForInRuleRecovery s.ruleStack s.ruleOccurrenceStack tokClass tokIdxInRule

/-- `consumeInternal`: optimized consume, with single-token in-rule recovery
attempted only when recovery is enabled, the failure is a mismatched token
and the parser is not backtracking; a failed in-rule recovery re-raises the
original mismatched-token exception. -/
def consumeInternal (env : ParserEnv) (tokClass : Nat) (idx : Nat) (s : PState) :
    Except ParseErr Token × PState :=
  match consumeInternalOptimized tokClass s with
  | (Except.ok t, s') => (Except.ok t, s')
  | (Except.error eFromConsumption, s') =>
    if env.recoveryEnabled && isMismatchedTokenException eFromConsumption &&
        !isBackTracking s' then
      let follows := getFollowsForInRuleRecovery env tokClass idx s'
      match tryInRuleRecovery env tokClass follows s' with
      | (Except.ok t, s'') => (Except.ok t, s'')
      | (Except.error eFromInRuleRecovery, s'') =>
        if eFromInRuleRecovery == ParseErr.inRuleRecovery then
          (Except.error eFromConsumption, s'')
        else
          (Except.error eFromInRuleRecovery, s'')
    else
      (Except.error eFromConsumption, s')

/-- `ruleInvocationStateUpdate`: push the occurrence and the rule name. -/
def ruleInvocationStateUpdate (ruleName : String) (idxInCallingRule : Nat)
    (s : PState) : PState :=
  { s with
    ruleOccurrenceStack := s.ruleOccurrenceStack ++ [idxInCallingRule]
    ruleStack := s.ruleStack ++ [ruleName] }

/-- The stack pops performed by `ruleFinallyStateUpdate`. -/
def ruleFinallyPop (s : PState) : PState :=
  { s with
    ruleStack := s.ruleStack.dropLast
    ruleOccurrenceStack := s.ruleOccurrenceStack.dropLast }

/-- `ruleFinallyStateUpdate`: pop both stacks; when that empties the rule
stack and `LA(1)` is not EOF, save a NotAllInputParsedException for the
first redundant token. -/
def ruleFinallyStateUpdate (s : PState) : PState :=
  if (ruleFinallyPop s).ruleStack.length == 0 && !isAtEndOfInput (ruleFinallyPop s) then
    (SAVE_ERROR (ruleFinallyPop s)
      { kind := .notAllInputParsed
        message := "Redundant input, expecting EOF but found: " ++
          (LA (ruleFinallyPop s) 1).image
        token := LA (ruleFinallyPop s) 1 }).2
  else
    ruleFinallyPop s

/-- `getCurrFollowKey`: the sentinel EOF key for the top rule, otherwise
the key of the current rule inside its caller. -/
def getCurrFollowKey (s : PState) : FollowKey :=
  if s.ruleStack.length == 1 then
    .eofKey
  else
    let currRuleIdx := s.ruleStack.length - 1
    .key (s.ruleStack.getD currRuleIdx "")
      (s.ruleOccurrenceStack.getD currRuleIdx 0)
      (s.ruleStack.getD (currRuleIdx - 1) "")

/-- `buildFullFollowKeyStack`: one follow key per rule-stack entry, the
bottom entry being the EOF sentinel key. -/
def buildFullFollowKeyStack (s : PState) : List FollowKey :=
  s.ruleStack.mapIdx fun idx ruleName =>
    if idx == 0 then
      .eofKey
    else
      .key ruleName (s.ruleOccurrenceStack.getD idx 0) (s.ruleStack.getD (idx - 1) "")

/-- `getFollowSetFromFollowKey`: the EOF sentinel key always denotes
`[EOF]`; other keys are looked up in the per-class re-sync follow cache. -/
def getFollowSetFromFollowKey (env : ParserEnv) : FollowKey → List Nat
  | .eofKey => [EOFTypeId]
  | .key ruleName idxInCallingRule inRule => env.resyncFollows ruleName idxInCallingRule inRule

/-- `flattenFollowSet`. -/
def flattenFollowSet (env : ParserEnv) (s : PState) : List Nat :=
  ((buildFullFollowKeyStack s).map (getFollowSetFromFollowKey env)).flatten

/-- `isInCurrentRuleReSyncSet`. -/
def isInCurrentRuleReSyncSet (env : ParserEnv) (s : PState) (token : Nat) : Bool :=
  let followKey := getCurrFollowKey s
  let currentRuleReSyncSet := getFollowSetFromFollowKey env followKey
  currentRuleReSyncSet.contains token

/-- The scanning loop of `findReSyncTokenType`: look at `LA(k)`, `LA(k+1)`,
... for the first token whose constructor is in the flattened follow set.
The fuel argument bounds the search; the original loop diverges exactly
when no position ever matches. -/
def findReSyncTokenTypeAux (s : PState) (types : List Nat) : Nat → Nat → Option Nat
  | 0, _ => none
  | fuel + 1, k =>
    let nextTokenType := (LA s k).ttype
    if types.contains nextTokenType then
      some nextTokenType
    else
      findReSyncTokenTypeAux s types fuel (k + 1)

/-- `findReSyncTokenType`: fuel covers every input position plus the
virtual EOF position after the end of the input. -/
def findReSyncTokenType (env : ParserEnv) (s : PState) : Option Nat :=
  findReSyncTokenTypeAux s (flattenFollowSet env s)
    ((s.input.length - s.inputIdx).toNat + 2) 1

/-- `addToResyncTokens`: virtual EOF tokens are not recorded. -/
def addToResyncTokens (token : Token) (resyncTokens : List Token) : List Token :=
  if !isInstanceOf token EOFTypeId then
    resyncTokens ++ [token]
  else
    resyncTokens

/-- The skipping loop of `reSyncTo`, with fuel; `none` corresponds to the
original loop diverging (never happens for a reachable re-sync target). -/
def reSyncToAux (tokClass : Nat) : Nat → PState → List Token → Option (List Token × PState)
  | 0, _, _ => none
  | fuel + 1, s, resyncedTokens =>
    if isInstanceOf (LA s 1) tokClass then
      some (resyncedTokens, s)
    else
      let r := SKIP_TOKEN s
      reSyncToAux tokClass fuel r.2 (addToResyncTokens r.1 resyncedTokens)

/-- `reSyncTo`: skip tokens up to (not including) the target token type;
the last recorded token is not part of the error (`dropRight`). -/
def reSyncTo (tokClass : Nat) (s : PState) : Option (List Token × PState) :=
  (reSyncToAux tokClass ((s.input.length - s.inputIdx).toNat + 1) s []).map
    (fun r => (r.1.dropLast, r.2))

/-- The wrapped grammar rule produced by `defineRule`.  The user rule body
`impl` is an arbitrary state transformer (the shallow embedding of the
actual rule implementation).  `none` corresponds to divergence of one of
the re-sync loops.  The aliasing update `e.resyncedTokens = ...` on the
exception object already stored in `errors` is not modelled (no claim
refers to it). -/
def wrappedGrammarRule {α : Type} (env : ParserEnv) (ruleName : String)
    (resyncEnabled : Bool) (recoveryValue : α)
    (impl : PState → Except ParseErr α × PState)
    (idxInCallingRule : Nat) (s : PState) :
    Option (Except ParseErr α × PState) :=
  match impl (ruleInvocationStateUpdate ruleName idxInCallingRule s) with
  | (Except.ok v, s1) => some (Except.ok v, ruleFinallyStateUpdate s1)
  | (Except.error e, s1) =>
    -- `s1.ruleStack.length == 1` is `isFirstInvokedRule`; re-sync is always
    -- enabled for the first rule invocation.
    if (s1.ruleStack.length == 1 ||
        (resyncEnabled && !isBackTracking s1 && env.recoveryEnabled)) &&
        isRecognitionException e then
      match findReSyncTokenType env s1 with
      | none => none
      | some reSyncTokType =>
        if isInCurrentRuleReSyncSet env s1 reSyncTokType then
          match reSyncTo reSyncTokType s1 with
          | none => none
          | some (_resyncedTokens, s2) =>
            some (Except.ok recoveryValue, ruleFinallyStateUpdate s2)
        else
          some (Except.error e, ruleFinallyStateUpdate s1)
    else
      some (Except.error e, ruleFinallyStateUpdate s1)

/-- The state snapshot taken by `saveRecogState` (`IParserState`). -/
structure SavedRecogState where
  errors : List RecogException
  lexerState : Int
  savedRuleStack : List String
deriving Repr, DecidableEq

/-- `saveRecogState`: errors, input index and rule stack. -/
def saveRecogState (s : PState) : SavedRecogState :=
  { errors := s.errors, lexerState := s.inputIdx, savedRuleStack := s.ruleStack }

/-- `reloadRecogState`. -/
def reloadRecogState (newState : SavedRecogState) (s : PState) : PState :=
  { s with
    errors := newState.errors
    inputIdx := newState.lexerState
    ruleStack := newState.savedRuleStack }

/-- `this.isBackTrackingStack.push(1)`. -/
def backtrackPushMarker (s : PState) : PState :=
  { s with isBackTrackingStack := s.isBackTrackingStack ++ [1] }

/-- The `finally` block of `BACKTRACK`: reload the saved recognizer state
and pop the backtracking marker. -/
def backtrackFinally (orgState : SavedRecogState) (s2 : PState) : PState :=
  { reloadRecogState orgState s2 with
    isBackTrackingStack := (reloadRecogState orgState s2).isBackTrackingStack.dropLast }

/-- `BACKTRACK`: run the rule under backtracking mode; success is decided
by `isValid`; a recognition exception yields `false`, any other exception
propagates; the saved state is restored and the marker popped on every
exit path. -/
def BACKTRACK {α : Type} (grammarRule : PState → Except ParseErr α × PState)
    (isValid : α → Bool) (s : PState) : Except ParseErr Bool × PState :=
  match grammarRule (backtrackPushMarker s) with
  | (Except.ok ruleResult, s2) =>
    (Except.ok (isValid ruleResult),
     backtrackFinally (saveRecogState (backtrackPushMarker s)) s2)
  | (Except.error e, s2) =>
    (if isRecognitionException e then Except.ok false else Except.error e,
     backtrackFinally (saveRecogState (backtrackPushMarker s)) s2)

/-- `resetLexerState`. -/
def resetLexerState (s : PState) : PState :=
  { s with inputIdx := -1 }

/-- `reset()`: clear every piece of per-instance runtime state. -/
def reset (s : PState) : PState :=
  let s1 := resetLexerState s
  { s1 with
    isBackTrackingStack := []
    errors := []
    input := []
    ruleStack := []
    ruleOccurrenceStack := [] }

/-- The public `input` setter: `reset()` then install the new sequence. -/
def setInput (s : PState) (newInput : List Token) : PState :=
  { reset s with input := newInput }

/-! ## Helper lemmas about the re-sync machinery -/

/-- `LA` past the end of the input is the fresh EOF token. -/
theorem LA_of_past_end (s : PState) (j : Nat)
    (h : (s.input.length : Int) ≤ s.inputIdx + j) : LA s j = freshEOF := by
  simp [LA, h]

/-- At lookahead distance `(length - inputIdx).toNat + 1` the input is
always exhausted. -/
theorem LA_eof_high (s : PState) :
    LA s ((s.input.length - s.inputIdx).toNat + 1) = freshEOF :=
  LA_of_past_end s _ (by omega)

/-- A successful `findReSyncTokenTypeAux` search returns a member of the
searched type list. -/
theorem findReSyncTokenTypeAux_mem (s : PState) (types : List Nat) :
    ∀ fuel k t, findReSyncTokenTypeAux s types fuel k = some t → t ∈ types := by
  intro fuel
  induction fuel with
  | zero => simp [findReSyncTokenTypeAux]
  | succ n ih =>
    intro k t h
    simp only [findReSyncTokenTypeAux] at h
    split at h
    · cases h
      simpa using ‹types.contains (LA s k).ttype = true›
    · exact ih (k + 1) t h

/-- `findReSyncTokenTypeAux` succeeds as soon as any position within the
fuel window carries a token whose type is in the searched list. -/
theorem findReSyncTokenTypeAux_some (s : PState) (types : List Nat) :
    ∀ fuel k, (∃ j, k ≤ j ∧ j < k + fuel ∧ (LA s j).ttype ∈ types) →
      ∃ t, findReSyncTokenTypeAux s types fuel k = some t ∧ t ∈ types := by
  intro fuel
  induction fuel with
  | zero =>
    intro k ⟨j, h1, h2, _⟩
    omega
  | succ n ih =>
    intro k ⟨j, h1, h2, hj⟩
    by_cases hc : types.contains (LA s k).ttype
    · refine ⟨(LA s k).ttype, ?_, by simpa using hc⟩
      simp only [findReSyncTokenTypeAux]
      rw [if_pos hc]
    · have hk : j ≠ k := by
        intro he
        subst he
        simp at hc
        exact hc hj
      have ⟨t, ht, hmem⟩ := ih (k + 1) ⟨j, by omega, by omega, hj⟩
      refine ⟨t, ?_, hmem⟩
      simp only [findReSyncTokenTypeAux]
      rw [if_neg hc]
      exact ht

/-- As long as EOF is in the flattened follow set, `findReSyncTokenType`
terminates with a member of that set (EOF is always a reachable re-sync
target at the virtual position past the end of the input). -/
theorem findReSyncTokenType_some_of_eofMem (env : ParserEnv) (s : PState)
    (h : EOFTypeId ∈ flattenFollowSet env s) :
    ∃ t, findReSyncTokenType env s = some t ∧ t ∈ flattenFollowSet env s := by
  apply findReSyncTokenTypeAux_some
  refine ⟨(s.input.length - s.inputIdx).toNat + 1, by omega, by omega, ?_⟩
  rw [LA_eof_high]
  exact h

/-- With a one-entry rule stack the flattened follow set is exactly
`[EOF]`. -/
theorem flattenFollowSet_top (env : ParserEnv) (s : PState) (r : String)
    (h : s.ruleStack = [r]) : flattenFollowSet env s = [EOFTypeId] := by
  simp [flattenFollowSet, buildFullFollowKeyStack, h, getFollowSetFromFollowKey]

/-- `isAtEndOfInput` only reads the token sequence and the input index. -/
theorem isAtEndOfInput_stacks (s : PState) (rs : List String) (os : List Nat) :
    isAtEndOfInput { s with ruleStack := rs, ruleOccurrenceStack := os } =
      isAtEndOfInput s := rfl

/-- The `reSyncTo` skipping loop with the EOF token class as target always
terminates within the stated fuel and only advances the input index. -/
theorem reSyncToAux_eof :
    ∀ fuel (s : PState) (acc : List Token),
      (s.input.length - s.inputIdx).toNat < fuel →
      ∃ toks s', reSyncToAux EOFTypeId fuel s acc = some (toks, s') ∧
        isAtEndOfInput s' = true ∧
        s'.errors = s.errors ∧ s'.ruleStack = s.ruleStack ∧
        s'.ruleOccurrenceStack = s.ruleOccurrenceStack ∧
        s'.input = s.input ∧ s'.isBackTrackingStack = s.isBackTrackingStack := by
  intro fuel
  induction fuel with
  | zero =>
    intro s acc h
    omega
  | succ n ih =>
    intro s acc h
    by_cases hend : isInstanceOf (LA s 1) EOFTypeId
    · exact ⟨acc, s, by simp [reSyncToAux, hend], hend, rfl, rfl, rfl, rfl, rfl⟩
    · have hlen : s.inputIdx + 1 < (s.input.length : Int) := by
        by_contra hc
        have : LA s 1 = freshEOF := LA_of_past_end s 1 (by push_cast; omega)
        rw [this] at hend
        simp [isInstanceOf, freshEOF] at hend
      have hskip : SKIP_TOKEN s = (LA (consumeToken s) 1, consumeToken s) := by
        rw [SKIP_TOKEN, if_pos (by omega)]
      have hmeas : ((consumeToken s).input.length - (consumeToken s).inputIdx).toNat < n := by
        simp only [consumeToken]
        omega
      have ⟨toks, s', hrs, hp1, hp2, hp3, hp4, hp5, hp6⟩ :=
        ih (consumeToken s) (addToResyncTokens (LA (consumeToken s) 1) acc) hmeas
      refine ⟨toks, s', ?_, hp1, hp2, hp3, hp4, hp5, hp6⟩
      simp only [reSyncToAux]
      rw [if_neg hend]
      simp only [hskip]
      exact hrs

/-- `reSyncTo` with the EOF target always succeeds and preserves every
state component other than the input index. -/
theorem reSyncTo_eof (s : PState) :
    ∃ toks s', reSyncTo EOFTypeId s = some (toks, s') ∧
      isAtEndOfInput s' = true ∧
      s'.errors = s.errors ∧ s'.ruleStack = s.ruleStack ∧
      s'.ruleOccurrenceStack = s.ruleOccurrenceStack ∧
      s'.input = s.input ∧ s'.isBackTrackingStack = s.isBackTrackingStack := by
  have ⟨toks, s', hrs, h1, h2, h3, h4, h5, h6⟩ :=
    reSyncToAux_eof ((s.input.length - s.inputIdx).toNat + 1) s [] (by omega)
  exact ⟨toks.dropLast, s', by simp [reSyncTo, hrs], h1, h2, h3, h4, h5, h6⟩

instance {ε α : Type} [DecidableEq ε] [DecidableEq α] : DecidableEq (Except ε α) :=
  fun a b =>
    match a, b with
    | .ok x, .ok y =>
      if h : x = y then .isTrue (by rw [h]) else .isFalse (by simp [h])
    | .error x, .error y =>
      if h : x = y then .isTrue (by rw [h]) else .isFalse (by simp [h])
    | .ok _, .error _ => .isFalse (by simp)
    | .error _, .ok _ => .isFalse (by simp)

/-- When the rule body raises a recognition exception and the rule stack at
catch time holds exactly the current rule (the top-level invocation), the
wrapper re-syncs to EOF and returns the recovery value, with the error list
unchanged from the body's exit state.  Shared by the recovery-enabled and
recovery-disabled top-rule facts. -/
theorem topRule_resync_catches {α : Type} (env : ParserEnv) (ruleName : String)
    (rc : Bool) (v : α) (impl : PState → Except ParseErr α × PState)
    (idx : Nat) (s : PState) (ex : RecogException) (s1 : PState)
    (hrun : impl (ruleInvocationStateUpdate ruleName idx s) =
      (Except.error (.recog ex), s1))
    (hstk : s1.ruleStack = [ruleName]) :
    ∃ s', wrappedGrammarRule env ruleName rc v impl idx s =
        some (Except.ok v, s') ∧ s'.errors = s1.errors := by
  obtain ⟨t, hfind, hmem⟩ := findReSyncTokenType_some_of_eofMem env s1
    (by rw [flattenFollowSet_top env s1 ruleName hstk]; simp)
  rw [flattenFollowSet_top env s1 ruleName hstk] at hmem
  have ht : t = EOFTypeId := by simpa using hmem
  subst ht
  obtain ⟨toks, s2, hrs, hend, herr, hsk, hocc, hin, hbt⟩ := reSyncTo_eof s1
  refine ⟨ruleFinallyStateUpdate s2, ?_, ?_⟩
  · unfold wrappedGrammarRule
    rw [hrun]
    simp only [isRecognitionException, hstk, List.length_cons, List.length_nil]
    rw [hfind]
    have hsync : isInCurrentRuleReSyncSet env s1 EOFTypeId = true := by
      simp [isInCurrentRuleReSyncSet, getCurrFollowKey, hstk, getFollowSetFromFollowKey]
    simp only [hsync]
    rw [hrs]
    simp
  · have hpop : (ruleFinallyStateUpdate s2).errors = s2.errors := by
      unfold ruleFinallyStateUpdate
      rw [if_neg]
      · rfl
      · intro hc
        rw [Bool.and_eq_true] at hc
        have hb : isAtEndOfInput (ruleFinallyPop s2) = true := hend
        have hc2 := hc.2
        rw [hb] at hc2
        cases hc2
    rw [hpop, herr]

/-- C1: with `recoveryEnabled = true`, a recognition exception raised by
the body of the top-level rule invocation never escapes the wrapped rule:
the wrapper catches it, re-syncs (EOF is always a reachable re-sync
target, so the re-sync loops terminate), returns the rule's recovery
value, and the exception recorded by the raise site stays in the parser's
error list. -/
theorem topRule_recovery_no_recognition_escape {α : Type} (env : ParserEnv)
    (ruleName : String) (rc : Bool) (v : α)
    (impl : PState → Except ParseErr α × PState) (idx : Nat) (s : PState)
    (ex : RecogException) (s1 : PState)
    (henv : env.recoveryEnabled = true)
    (htop : s.ruleStack = [])
    (hrun : impl (ruleInvocationStateUpdate ruleName idx s) =
      (Except.error (.recog ex), s1))
    (hbal : s1.ruleStack = s.ruleStack ++ [ruleName])
    (hsaved : ex ∈ s1.errors) :
    ∃ s', wrappedGrammarRule env ruleName rc v impl idx s =
        some (Except.ok v, s') ∧ ex ∈ s'.errors := by
  obtain ⟨s', h1, h2⟩ := topRule_resync_catches env ruleName rc v impl idx s ex s1
    hrun (by rw [hbal, htop]; rfl)
  exact ⟨s', h1, h2 ▸ hsaved⟩

/-- C2 (amended): with `recoveryEnabled = false`, the first recognition
exception raised by the body of the top-level rule invocation is still
caught by the wrapper (re-sync is always enabled on the first rule
invocation), which re-syncs to EOF and returns the rule's recovery value
instead of raising; afterwards the errors list holds exactly that one
exception. -/
theorem recoveryDisabled_topRule_resyncs {α : Type} (env : ParserEnv)
    (ruleName : String) (rc : Bool) (v : α)
    (impl : PState → Except ParseErr α × PState) (idx : Nat) (s : PState)
    (ex : RecogException) (s1 : PState)
    (henv : env.recoveryEnabled = false)
    (htop : s.ruleStack = [])
    (hinit : s.errors = [])
    (hrun : impl (ruleInvocationStateUpdate ruleName idx s) =
      (Except.error (.recog ex), s1))
    (hbal : s1.ruleStack = s.ruleStack ++ [ruleName])
    (herrs : s1.errors = s.errors ++ [ex]) :
    ∃ s', wrappedGrammarRule env ruleName rc v impl idx s =
        some (Except.ok v, s') ∧ s'.errors = [ex] := by
  obtain ⟨s', h1, h2⟩ := topRule_resync_catches env ruleName rc v impl idx s ex s1
    hrun (by rw [hbal, htop]; rfl)
  refine ⟨s', h1, ?_⟩
  rw [h2, herrs, hinit]
  rfl

/-! ## Concrete scenario used by the C1/C2 artifacts -/

/-- An environment with recovery enabled and empty in-rule follows. -/
def envRec : ParserEnv :=
  { recoveryEnabled := true
    resyncFollows := fun _ _ _ => []
    followsForInRuleRecovery := fun _ _ _ _ => [] }

/-- The same environment with recovery disabled. -/
def envNoRec : ParserEnv :=
  { envRec with recoveryEnabled := false }

/-- A token of a type (2) different from the one the concrete rule
expects (1). -/
def tokB : Token := { ttype := 2, image := "b" }

/-- Fresh parser state over the single-token input `[tokB]`. -/
def sTop : PState := { input := [tokB] }

/-- A concrete rule body: consume one token of type 1 (recovery enabled). -/
def implRec (st : PState) : Except ParseErr (Option Token) × PState :=
  match consumeInternal envRec 1 1 st with
  | (Except.ok t, st') => (Except.ok (some t), st')
  | (Except.error e, st') => (Except.error e, st')

/-- The same concrete rule body with recovery disabled. -/
def implNoRec (st : PState) : Except ParseErr (Option Token) × PState :=
  match consumeInternal envNoRec 1 1 st with
  | (Except.ok t, st') => (Except.ok (some t), st')
  | (Except.error e, st') => (Except.error e, st')

/-- The mismatched-token exception the concrete body raises. -/
def exMis : RecogException :=
  { kind := .mismatchedToken
    message := getMisMatchTokenErrorMessage 1 tokB
    token := tokB
    context := some ⟨["top"], [1]⟩ }

/-- The state in which the concrete body raises `exMis`. -/
def sAfterRaise : PState :=
  { input := [tokB], errors := [exMis], ruleStack := ["top"],
    ruleOccurrenceStack := [1] }

/-- Witness for C1 at the concrete scenario. -/
theorem topRule_recovery_no_recognition_escape_witness :
    envRec.recoveryEnabled = true ∧ sTop.ruleStack = [] ∧
    implRec (ruleInvocationStateUpdate "top" 1 sTop) =
      (Except.error (.recog exMis), sAfterRaise) ∧
    sAfterRaise.ruleStack = sTop.ruleStack ++ ["top"] ∧
    exMis ∈ sAfterRaise.errors ∧
    (∃ s', wrappedGrammarRule envRec "top" true (none : Option Token) implRec 1 sTop =
        some (Except.ok none, s') ∧ exMis ∈ s'.errors) :=
  ⟨rfl, rfl, by decide, by decide, by decide,
    topRule_recovery_no_recognition_escape envRec "top" true none implRec 1 sTop
      exMis sAfterRaise rfl rfl (by decide) (by decide) (by decide)⟩

/-- C2 counterexample: at the concrete non-matching input with
`recoveryEnabled = false`, the parse call does NOT raise the recognition
exception out (the wrapper returns the recovery value), even though the
errors list has length 1. -/
theorem recoveryDisabled_parse_does_not_raise :
    (wrappedGrammarRule envNoRec "top" true (none : Option Token) implNoRec 1 sTop).map
      (fun r => (r.1.isOk, r.2.errors.length)) = some (true, 1) := by
  decide

/-- Witness for the amended C2 at the concrete scenario. -/
theorem recoveryDisabled_topRule_resyncs_witness :
    envNoRec.recoveryEnabled = false ∧ sTop.ruleStack = [] ∧ sTop.errors = [] ∧
    implNoRec (ruleInvocationStateUpdate "top" 1 sTop) =
      (Except.error (.recog exMis), sAfterRaise) ∧
    sAfterRaise.ruleStack = sTop.ruleStack ++ ["top"] ∧
    sAfterRaise.errors = sTop.errors ++ [exMis] ∧
    (∃ s', wrappedGrammarRule envNoRec "top" true (none : Option Token) implNoRec 1 sTop =
        some (Except.ok none, s') ∧ s'.errors = [exMis]) :=
  ⟨rfl, rfl, rfl, by decide, by decide, by decide,
    recoveryDisabled_topRule_resyncs envNoRec "top" true none implNoRec 1 sTop
      exMis sAfterRaise rfl rfl rfl (by decide) (by decide) (by decide)⟩

/-- C5: `LA` is total: beyond the last input index it returns a freshly
constructed EOF token, otherwise the token at position
`inputIdx + howMuch` (an in-bounds read). -/
theorem LA_total_spec (s : PState) (howMuch : Nat)
    (h1 : 1 ≤ howMuch) (h2 : -1 ≤ s.inputIdx) :
    ((s.input.length : Int) ≤ s.inputIdx + howMuch → LA s howMuch = freshEOF) ∧
    (s.inputIdx + howMuch < (s.input.length : Int) →
      ∃ hidx : (s.inputIdx + howMuch).toNat < s.input.length,
        LA s howMuch = s.input.get ⟨(s.inputIdx + howMuch).toNat, hidx⟩) := by
  constructor
  · intro h
    exact LA_of_past_end s howMuch h
  · intro h
    have hidx : (s.inputIdx + howMuch).toNat < s.input.length := by omega
    refine ⟨hidx, ?_⟩
    rw [LA, if_neg (by omega)]
    rw [List.getD_eq_getElem s.input freshEOF hidx]
    rfl

/-- Witness for C5 at a concrete one-token input. -/
theorem LA_total_spec_witness :
    (1 ≤ 1 ∧ -1 ≤ sTop.inputIdx) ∧
    (((sTop.input.length : Int) ≤ sTop.inputIdx + 1 → LA sTop 1 = freshEOF) ∧
      (sTop.inputIdx + 1 < (sTop.input.length : Int) →
        ∃ hidx : (sTop.inputIdx + 1).toNat < sTop.input.length,
          LA sTop 1 = sTop.input.get ⟨(sTop.inputIdx + 1).toNat, hidx⟩)) :=
  ⟨⟨by decide, by decide⟩, LA_total_spec sTop 1 (by decide) (by decide)⟩

/-- C10: assigning through the public `input` setter resets all
per-instance runtime state before installing the new token sequence. -/
theorem input_setter_resets (s : PState) (newInput : List Token) :
    (setInput s newInput).errors = [] ∧
    (setInput s newInput).ruleStack = [] ∧
    (setInput s newInput).ruleOccurrenceStack = [] ∧
    (setInput s newInput).isBackTrackingStack = [] ∧
    (setInput s newInput).inputIdx = -1 ∧
    (setInput s newInput).input = newInput := by
  simp [setInput, reset, resetLexerState]

/-- The mismatched-token exception `consumeInternalOptimized` raises (and
saves) when `LA(1)` is not an instance of the expected token class. -/
def mismatchEx (tokClass : Nat) (s : PState) : RecogException :=
  { kind := .mismatchedToken
    message := getMisMatchTokenErrorMessage tokClass (LA s 1)
    token := LA s 1
    context := some ⟨s.ruleStack, s.ruleOccurrenceStack⟩ }

/-- On a mismatch, `consumeInternalOptimized` raises the saved
mismatched-token exception and only extends the error list. -/
theorem consumeInternalOptimized_mismatch (tokClass : Nat) (s : PState)
    (h : isInstanceOf (LA s 1) tokClass = false) :
    consumeInternalOptimized tokClass s =
      (Except.error (.recog (mismatchEx tokClass s)),
       { s with errors := s.errors ++ [mismatchEx tokClass s] }) := by
  simp [consumeInternalOptimized, h, SAVE_ERROR, mismatchEx]

/-- `tryInRuleRecovery` can only fail with the internal
`InRuleRecoveryException`. -/
theorem tryInRuleRecovery_error_eq (env : ParserEnv) (tokClass : Nat)
    (follows : List Nat) (s : PState) (e : ParseErr) (s2 : PState)
    (h : tryInRuleRecovery env tokClass follows s = (Except.error e, s2)) :
    e = ParseErr.inRuleRecovery := by
  unfold tryInRuleRecovery at h
  split at h
  · cases h
  · split at h
    · cases h
    · cases h
      rfl

/-- Shift lemma: looking `n` ahead after consuming one token is looking
`n + 1` ahead before. -/
theorem LA_consumeToken (s : PState) (n : Nat) :
    LA (consumeToken s) n = LA s (n + 1) := by
  have h1 : s.inputIdx + 1 + (n : Int) = s.inputIdx + ((n + 1 : Nat) : Int) := by
    push_cast
    ring
  simp [LA, consumeToken, h1]

/-- C3: `consume` returns `LA(1)` and advances the input index by one when
`LA(1)` is an instance of the expected class; otherwise it raises a
mismatched-token exception that is recorded in `errors` together with the
rule-stack context, and single-token recovery is attempted exactly when
recovery is enabled and the parser is not backtracking. -/
theorem consumeInternal_spec (env : ParserEnv) (tokClass idx : Nat) (s : PState) :
    (isInstanceOf (LA s 1) tokClass = true →
      consumeInternal env tokClass idx s = (Except.ok (LA s 1), consumeToken s)) ∧
    (isInstanceOf (LA s 1) tokClass = false →
      env.recoveryEnabled = false ∨ isBackTracking s = true →
      consumeInternal env tokClass idx s =
        (Except.error (.recog (mismatchEx tokClass s)),
         { s with errors := s.errors ++ [mismatchEx tokClass s] }) ∧
      (mismatchEx tokClass s).kind = .mismatchedToken ∧
      (mismatchEx tokClass s).token = LA s 1 ∧
      (mismatchEx tokClass s).context = some ⟨s.ruleStack, s.ruleOccurrenceStack⟩) ∧
    (isInstanceOf (LA s 1) tokClass = false →
      env.recoveryEnabled = true → isBackTracking s = false →
      consumeInternal env tokClass idx s =
        (match tryInRuleRecovery env tokClass
            (getFollowsForInRuleRecovery env tokClass idx
              { s with errors := s.errors ++ [mismatchEx tokClass s] })
            { s with errors := s.errors ++ [mismatchEx tokClass s] } with
         | (Except.ok t, s2) => (Except.ok t, s2)
         | (Except.error _, s2) =>
           (Except.error (.recog (mismatchEx tokClass s)), s2))) := by
  refine ⟨?_, ?_, ?_⟩
  · intro h
    simp [consumeInternal, consumeInternalOptimized, h]
  · intro h hgate
    refine ⟨?_, rfl, rfl, rfl⟩
    unfold consumeInternal
    rw [consumeInternalOptimized_mismatch tokClass s h]
    have hbt : isBackTracking { s with errors := s.errors ++ [mismatchEx tokClass s] } =
        isBackTracking s := rfl
    rcases hgate with hR | hB
    · simp [hR]
    · simp [hbt, hB]
  · intro h h1 h2
    unfold consumeInternal
    rw [consumeInternalOptimized_mismatch tokClass s h]
    have hbt2 : isBackTracking { s with errors := s.errors ++ [mismatchEx tokClass s] } =
        false := h2
    have hcond : (env.recoveryEnabled &&
        isMismatchedTokenException (.recog (mismatchEx tokClass s)) &&
        !isBackTracking { s with errors := s.errors ++ [mismatchEx tokClass s] }) = true := by
      rw [h1, hbt2]
      rfl
    simp only [hcond, if_true]
    rcases htry : tryInRuleRecovery env tokClass
        (getFollowsForInRuleRecovery env tokClass idx
          { s with errors := s.errors ++ [mismatchEx tokClass s] })
        { s with errors := s.errors ++ [mismatchEx tokClass s] } with ⟨r2, s2⟩
    cases r2 with
    | ok t => rfl
    | error e2 =>
      have he2 := tryInRuleRecovery_error_eq env tokClass _ _ e2 s2 htry
      subst he2
      rfl

/-- Witness for C3 at a concrete mismatching input with recovery
disabled. -/
theorem consumeInternal_spec_witness :
    isInstanceOf (LA sTop 1) 1 = false ∧ envNoRec.recoveryEnabled = false ∧
    (consumeInternal envNoRec 1 1 sTop =
      (Except.error (.recog (mismatchEx 1 sTop)),
       { sTop with errors := sTop.errors ++ [mismatchEx 1 sTop] }) ∧
     (mismatchEx 1 sTop).kind = .mismatchedToken ∧
     (mismatchEx 1 sTop).token = LA sTop 1 ∧
     (mismatchEx 1 sTop).context = some ⟨sTop.ruleStack, sTop.ruleOccurrenceStack⟩) :=
  ⟨by decide, rfl,
    (consumeInternal_spec envNoRec 1 1 sTop).2.1 (by decide) (Or.inl rfl)⟩

/-- C4: in-rule recovery of a failed consume tries single-token insertion
first (fabricated token of the expected type, flagged, no input consumed),
then single-token deletion (discard `LA(1)`, return `LA(2)`, two positions
consumed), and otherwise the original mismatched-token exception
propagates; the internal `InRuleRecoveryException` never surfaces. -/
theorem tryInRuleRecovery_spec (env : ParserEnv) (tokClass idx : Nat) (s : PState)
    (hmis : isInstanceOf (LA s 1) tokClass = false)
    (hrec : env.recoveryEnabled = true)
    (hbt : isBackTracking s = false) :
    (canRecoverWithSingleTokenInsertion env tokClass
        (getFollowsForInRuleRecovery env tokClass idx s) s =
      (env.canInsert tokClass &&
        !(getFollowsForInRuleRecovery env tokClass idx s).isEmpty &&
        (getFollowsForInRuleRecovery env tokClass idx s).any
          (fun f => isInstanceOf (LA s 1) f))) ∧
    (canRecoverWithSingleTokenInsertion env tokClass
        (getFollowsForInRuleRecovery env tokClass idx s) s = true →
      consumeInternal env tokClass idx s =
        (Except.ok { ttype := tokClass, image := "", isInsertedInRecovery := true },
         { s with errors := s.errors ++ [mismatchEx tokClass s] })) ∧
    (canRecoverWithSingleTokenInsertion env tokClass
        (getFollowsForInRuleRecovery env tokClass idx s) s = false →
      isInstanceOf (LA s 2) tokClass = true →
      consumeInternal env tokClass idx s =
        (Except.ok (LA s 2),
         { s with errors := s.errors ++ [mismatchEx tokClass s],
                  inputIdx := s.inputIdx + 2 })) ∧
    (canRecoverWithSingleTokenInsertion env tokClass
        (getFollowsForInRuleRecovery env tokClass idx s) s = false →
      isInstanceOf (LA s 2) tokClass = false →
      consumeInternal env tokClass idx s =
        (Except.error (.recog (mismatchEx tokClass s)),
         { s with errors := s.errors ++ [mismatchEx tokClass s] })) ∧
    (consumeInternal env tokClass idx s).1 ≠ Except.error ParseErr.inRuleRecovery := by
  have hmain := (consumeInternal_spec env tokClass idx s).2.2 hmis hrec hbt
  refine ⟨?_, ?_, ?_, ?_, ?_⟩
  · cases hci : env.canInsert tokClass <;>
      cases hfe : (getFollowsForInRuleRecovery env tokClass idx s).isEmpty <;>
      simp [canRecoverWithSingleTokenInsertion, hci, hfe]
  · intro hins
    rw [hmain]
    unfold tryInRuleRecovery
    rw [if_pos (show canRecoverWithSingleTokenInsertion env tokClass
      (getFollowsForInRuleRecovery env tokClass idx
        { s with errors := s.errors ++ [mismatchEx tokClass s] })
      { s with errors := s.errors ++ [mismatchEx tokClass s] } = true from hins)]
    rfl
  · intro hnoins hdel2
    have hlen : s.inputIdx ≤ (s.input.length : Int) - 2 := by
      by_contra hc
      have e2 : LA s 2 = freshEOF := LA_of_past_end s 2 (by push_cast; omega)
      have e1 : LA s 1 = freshEOF := LA_of_past_end s 1 (by push_cast; omega)
      rw [e2] at hdel2
      rw [e1] at hmis
      rw [hmis] at hdel2
      exact absurd hdel2 (by simp)
    rw [hmain]
    unfold tryInRuleRecovery
    rw [if_neg (show ¬(canRecoverWithSingleTokenInsertion env tokClass
      (getFollowsForInRuleRecovery env tokClass idx
        { s with errors := s.errors ++ [mismatchEx tokClass s] })
      { s with errors := s.errors ++ [mismatchEx tokClass s] } = true) from by
        rw [show canRecoverWithSingleTokenInsertion env tokClass
          (getFollowsForInRuleRecovery env tokClass idx
            { s with errors := s.errors ++ [mismatchEx tokClass s] })
          { s with errors := s.errors ++ [mismatchEx tokClass s] } = false from hnoins]
        simp)]
    rw [if_pos (show canRecoverWithSingleTokenDeletion tokClass
      { s with errors := s.errors ++ [mismatchEx tokClass s] } = true from hdel2)]
    rw [show SKIP_TOKEN { s with errors := s.errors ++ [mismatchEx tokClass s] } =
      (LA (consumeToken { s with errors := s.errors ++ [mismatchEx tokClass s] }) 1,
       consumeToken { s with errors := s.errors ++ [mismatchEx tokClass s] }) from by
        unfold SKIP_TOKEN
        rw [if_pos (show ({ s with errors := s.errors ++ [mismatchEx tokClass s] } :
          PState).inputIdx ≤
            (({ s with errors := s.errors ++ [mismatchEx tokClass s] } :
              PState).input.length : Int) - 2 from hlen)]]
    have htok2 :
        LA ({ s with errors := s.errors ++ [mismatchEx tokClass s], inputIdx := s.inputIdx + 1 } : PState) 1 = LA s 2 :=
      LA_consumeToken { s with errors := s.errors ++ [mismatchEx tokClass s] } 1
    have harith : s.inputIdx + 1 + (1 : Int) = s.inputIdx + 2 := by ring
    simp only [consumeToken, harith]
    rw [htok2]
  · intro hnoins hnodel
    rw [hmain]
    unfold tryInRuleRecovery
    rw [if_neg (show ¬(canRecoverWithSingleTokenInsertion env tokClass
      (getFollowsForInRuleRecovery env tokClass idx
        { s with errors := s.errors ++ [mismatchEx tokClass s] })
      { s with errors := s.errors ++ [mismatchEx tokClass s] } = true) from by
        rw [show canRecoverWithSingleTokenInsertion env tokClass
          (getFollowsForInRuleRecovery env tokClass idx
            { s with errors := s.errors ++ [mismatchEx tokClass s] })
          { s with errors := s.errors ++ [mismatchEx tokClass s] } = false from hnoins]
        simp)]
    rw [if_neg (show ¬(canRecoverWithSingleTokenDeletion tokClass
      { s with errors := s.errors ++ [mismatchEx tokClass s] } = true) from by
        rw [show canRecoverWithSingleTokenDeletion tokClass
          { s with errors := s.errors ++ [mismatchEx tokClass s] } = false from hnodel]
        simp)]
  · rw [hmain]
    rcases htry : tryInRuleRecovery env tokClass
        (getFollowsForInRuleRecovery env tokClass idx
          { s with errors := s.errors ++ [mismatchEx tokClass s] })
        { s with errors := s.errors ++ [mismatchEx tokClass s] } with ⟨r2, s2⟩
    cases r2 <;> simp

/-- A recovery-enabled environment whose in-rule FOLLOW set holds the
token type (2) of the concrete mismatched token, enabling insertion. -/
def envIns : ParserEnv :=
  { recoveryEnabled := true
    resyncFollows := fun _ _ _ => []
    followsForInRuleRecovery := fun _ _ _ _ => [2] }

/-- Witness for C4: single-token insertion at the concrete scenario. -/
theorem tryInRuleRecovery_spec_witness :
    isInstanceOf (LA sTop 1) 1 = false ∧ envIns.recoveryEnabled = true ∧
    isBackTracking sTop = false ∧
    consumeInternal envIns 1 1 sTop =
      (Except.ok { ttype := 1, image := "", isInsertedInRecovery := true },
       { sTop with errors := sTop.errors ++ [mismatchEx 1 sTop] }) :=
  ⟨by decide, rfl, rfl,
    (tryInRuleRecovery_spec envIns 1 1 sTop (by decide) rfl rfl).2.1 (by decide)⟩

/-- C6: the rule wrapper's exit path pops one entry from both the
rule-name and rule-occurrence stacks on every exit (normal return,
recovery, and re-thrown exception alike), and exactly when the rule stack
becomes empty while `LA(1)` is not EOF, a NotAllInputParsed exception
carrying the first redundant token is recorded in `errors`. -/
theorem ruleFinally_spec (s : PState) :
    (ruleFinallyStateUpdate s).ruleStack = s.ruleStack.dropLast ∧
    (ruleFinallyStateUpdate s).ruleOccurrenceStack = s.ruleOccurrenceStack.dropLast ∧
    (s.ruleStack.dropLast = [] → isAtEndOfInput s = false →
      ∃ ex, (ruleFinallyStateUpdate s).errors = s.errors ++ [ex] ∧
        ex.kind = .notAllInputParsed ∧ ex.token = LA s 1) ∧
    (s.ruleStack.dropLast ≠ [] ∨ isAtEndOfInput s = true →
      (ruleFinallyStateUpdate s).errors = s.errors) ∧
    (∀ {α : Type} (env : ParserEnv) (ruleName : String) (rc : Bool) (v : α)
        (impl : PState → Except ParseErr α × PState) (idx : Nat)
        (r : Except ParseErr α) (s' : PState),
      wrappedGrammarRule env ruleName rc v impl idx s = some (r, s') →
      ∃ sMid, s' = ruleFinallyStateUpdate sMid) := by
  have hend : isAtEndOfInput (ruleFinallyPop s) = isAtEndOfInput s := rfl
  have hrsk : (ruleFinallyPop s).ruleStack = s.ruleStack.dropLast := rfl
  refine ⟨?_, ?_, ?_, ?_, ?_⟩
  · unfold ruleFinallyStateUpdate
    split
    · rfl
    · rfl
  · unfold ruleFinallyStateUpdate
    split
    · rfl
    · rfl
  · intro hempty hnotEnd
    refine ⟨{ kind := .notAllInputParsed,
              message := "Redundant input, expecting EOF but found: " ++ (LA s 1).image,
              token := LA s 1,
              context := some ⟨s.ruleStack.dropLast, s.ruleOccurrenceStack.dropLast⟩ }, ?_, rfl, rfl⟩
    unfold ruleFinallyStateUpdate
    rw [if_pos]
    · rfl
    · rw [hend, hnotEnd, hrsk, hempty]
      rfl
  · intro hcond
    unfold ruleFinallyStateUpdate
    rw [if_neg]
    · rfl
    · intro hc
      rw [Bool.and_eq_true] at hc
      have h1 : s.ruleStack.dropLast = [] := by
        have hl := hc.1
        rw [hrsk] at hl
        rw [beq_iff_eq] at hl
        exact List.length_eq_zero.mp hl
      have h2 : isAtEndOfInput s = false := by
        have hb := hc.2
        rw [hend] at hb
        cases hq : isAtEndOfInput s
        · rfl
        · rw [hq] at hb
          cases hb
      rcases hcond with hne | hat
      · exact hne h1
      · rw [hat] at h2
        cases h2
  · intro α env ruleName rc v impl idx r s' h
    unfold wrappedGrammarRule at h
    repeat' split at h
    all_goals
      first
        | (simp only [Option.some.injEq, Prod.mk.injEq] at h
           exact ⟨_, h.2.symm⟩)
        | simp at h

/-- A state in the middle of a top-rule invocation with unconsumed input,
used to exercise the NotAllInputParsed branch of the rule-exit update. -/
def sMidRule : PState :=
  { input := [tokB], ruleStack := ["top"], ruleOccurrenceStack := [1] }

/-- Witness for C6 at a concrete state whose pop empties the rule stack
with redundant input remaining. -/
theorem ruleFinally_spec_witness :
    sMidRule.ruleStack.dropLast = [] ∧ isAtEndOfInput sMidRule = false ∧
    (ruleFinallyStateUpdate sMidRule).ruleStack = sMidRule.ruleStack.dropLast ∧
    (∃ ex, (ruleFinallyStateUpdate sMidRule).errors = sMidRule.errors ++ [ex] ∧
      ex.kind = .notAllInputParsed ∧ ex.token = LA sMidRule 1) :=
  ⟨by decide, by decide, (ruleFinally_spec sMidRule).1,
    (ruleFinally_spec sMidRule).2.2.1 (by decide) (by decide)⟩

/-- C7: `BACKTRACK` restores the saved recognizer state (errors, input
index, rule stack) and pops the backtracking marker on every exit path; a
recognition exception makes it return `false`, success is decided by
`isValid`, and any other exception propagates unchanged.  The hypothesis
states that the rule body is balanced with respect to the backtracking
stack, which every wrapped rule is. -/
theorem BACKTRACK_spec {α : Type} (grammarRule : PState → Except ParseErr α × PState)
    (isValid : α → Bool) (s : PState)
    (hbal : ((grammarRule (backtrackPushMarker s)).2).isBackTrackingStack =
      s.isBackTrackingStack ++ [1]) :
    (BACKTRACK grammarRule isValid s).2.errors = s.errors ∧
    (BACKTRACK grammarRule isValid s).2.inputIdx = s.inputIdx ∧
    (BACKTRACK grammarRule isValid s).2.ruleStack = s.ruleStack ∧
    (BACKTRACK grammarRule isValid s).2.isBackTrackingStack = s.isBackTrackingStack ∧
    (∀ r s2, grammarRule (backtrackPushMarker s) = (Except.ok r, s2) →
      (BACKTRACK grammarRule isValid s).1 = Except.ok (isValid r)) ∧
    (∀ e s2, grammarRule (backtrackPushMarker s) = (Except.error e, s2) →
      isRecognitionException e = true →
      (BACKTRACK grammarRule isValid s).1 = Except.ok false) ∧
    (∀ e s2, grammarRule (backtrackPushMarker s) = (Except.error e, s2) →
      isRecognitionException e = false →
      (BACKTRACK grammarRule isValid s).1 = Except.error e) := by
  have hstate : (BACKTRACK grammarRule isValid s).2 =
      backtrackFinally (saveRecogState (backtrackPushMarker s))
        ((grammarRule (backtrackPushMarker s)).2) := by
    unfold BACKTRACK
    rcases grammarRule (backtrackPushMarker s) with ⟨r1, st⟩
    cases r1 <;> rfl
  have hresult : (BACKTRACK grammarRule isValid s).1 =
      (match (grammarRule (backtrackPushMarker s)).1 with
       | Except.ok rr => Except.ok (isValid rr)
       | Except.error e =>
         if isRecognitionException e then Except.ok false else Except.error e) := by
    unfold BACKTRACK
    rcases grammarRule (backtrackPushMarker s) with ⟨r1, st⟩
    cases r1 <;> rfl
  refine ⟨?_, ?_, ?_, ?_, ?_, ?_, ?_⟩
  · rw [hstate]; rfl
  · rw [hstate]; rfl
  · rw [hstate]; rfl
  · rw [hstate]
    show ((grammarRule (backtrackPushMarker s)).2).isBackTrackingStack.dropLast =
      s.isBackTrackingStack
    rw [hbal]
    exact List.dropLast_concat
  · intro r s2 h
    rw [hresult, h]
  · intro e s2 h hrec
    rw [hresult, h]
    simp [hrec]
  · intro e s2 h hrec
    rw [hresult, h]
    simp [hrec]

/-- A concrete backtracked rule body raising a recognition exception while
keeping the backtracking stack balanced. -/
def implBt (st : PState) : Except ParseErr Token × PState :=
  (Except.error (.recog (mismatchEx 1 st)), st)

/-- Witness for C7 at a concrete recognition-exception run. -/
theorem BACKTRACK_spec_witness :
    ((implBt (backtrackPushMarker sTop)).2).isBackTrackingStack =
      sTop.isBackTrackingStack ++ [1] ∧
    (BACKTRACK implBt (fun _ => true) sTop).2.errors = sTop.errors ∧
    (BACKTRACK implBt (fun _ => true) sTop).2.inputIdx = sTop.inputIdx ∧
    (BACKTRACK implBt (fun _ => true) sTop).2.isBackTrackingStack =
      sTop.isBackTrackingStack ∧
    (BACKTRACK implBt (fun _ => true) sTop).1 = Except.ok false :=
  ⟨by decide,
    (BACKTRACK_spec implBt (fun _ => true) sTop (by decide)).1,
    (BACKTRACK_spec implBt (fun _ => true) sTop (by decide)).2.1,
    (BACKTRACK_spec implBt (fun _ => true) sTop (by decide)).2.2.2.1,
    (BACKTRACK_spec implBt (fun _ => true) sTop (by decide)).2.2.2.2.2.1
      (.recog (mismatchEx 1 (backtrackPushMarker sTop))) (backtrackPushMarker sTop)
      rfl rfl⟩

/-! ## Self-analysis orchestration (`performSelfAnalysis`)

The resolver, the validator and the FOLLOW computation live in modules that
are not part of the translated source (`grammar/resolver.ts`,
`grammar/checks.ts`, `grammar/follow.ts`); their results enter as
parameters.  The per-class cache (`cache.ts`) is modelled by
`AnalysisCache`; the cloned productions table is not needed by any claim
and is omitted.  The outcome record carries instrumentation flags
(`validatorRan`, `followsStored`) that mirror exactly which phases of the
source orchestration execute, and `thrown` models the raised aggregated
definition error. -/

/-- A parser definition error (only the message matters here). -/
structure ParserDefinitionError where
  message : String
deriving Repr, DecidableEq

/-- The aggregated fatal message
(`Parser Definition Errors detected ...`). -/
def aggregateDefErrorsMessage (errs : List ParserDefinitionError) : String :=
  "Parser Definition Errors detected\n: " ++
    String.intercalate "\n-------------------------------\n" (errs.map (fun e => e.message))

/-- The process-wide per-class cache: analysis-done marks, definition
errors and re-sync FOLLOW tables (`F` abstracts the follow-table type). -/
structure AnalysisCache (F : Type) where
  selfAnalysisDone : List String := []
  defErrors : String → List ParserDefinitionError := fun _ => []
  resyncFollows : String → Option F := fun _ => none

/-- The outcome of one `performSelfAnalysis` run. -/
structure SelfAnalysisOutcome (F : Type) where
  cache : AnalysisCache F
  thrown : Option String
  validatorRan : Bool
  followsStored : Bool

/-- The total definition-error list after the analysis block: the cached
errors (rule-registration errors), the resolver errors, and - only when
the resolver produced zero errors - the validator errors. -/
def totalDefErrors {F : Type} (className : String)
    (resolverErrors validationErrors : List ParserDefinitionError)
    (c : AnalysisCache F) : List ParserDefinitionError :=
  if resolverErrors.isEmpty then
    c.defErrors className ++ resolverErrors ++ validationErrors
  else
    c.defErrors className ++ resolverErrors

/-- The cache state after the first-construction analysis block: the class
is marked analysis-done, its definition errors are recorded, and the
FOLLOW table is stored exactly when the total error list is empty. -/
def cacheAfterAnalysis {F : Type} (className : String)
    (resolverErrors validationErrors : List ParserDefinitionError)
    (allFollows : F) (c : AnalysisCache F) : AnalysisCache F :=
  { selfAnalysisDone := className :: c.selfAnalysisDone
    defErrors := fun n =>
      if n = className then totalDefErrors className resolverErrors validationErrors c
      else c.defErrors n
    resyncFollows := fun n =>
      if (totalDefErrors className resolverErrors validationErrors c).isEmpty then
        (if n = className then some allFollows else c.resyncFollows n)
      else
        c.resyncFollows n }

/-- `performSelfAnalysis`: reject anonymous classes; on first construction
run resolver, then validator (only when the resolver produced zero
errors), store FOLLOW sets (only when the total error list is empty), and
raise the aggregated error when errors exist and deferral is disabled;
on later constructions only the final re-raise check runs against the
cache. -/
def performSelfAnalysis {F : Type} (className : String)
    (resolverErrors validationErrors : List ParserDefinitionError)
    (allFollows : F) (deferHandling : Bool)
    (c : AnalysisCache F) : SelfAnalysisOutcome F :=
  if className = "" then
    { cache := c
      thrown := some "A Parser constructor may not be an anonymous Function"
      validatorRan := false, followsStored := false }
  else if className ∈ c.selfAnalysisDone then
    if !(c.defErrors className).isEmpty && !deferHandling then
      { cache := c
        thrown := some (aggregateDefErrorsMessage (c.defErrors className))
        validatorRan := false, followsStored := false }
    else
      { cache := c, thrown := none, validatorRan := false, followsStored := false }
  else
    if !(totalDefErrors className resolverErrors validationErrors c).isEmpty &&
        !deferHandling then
      { cache := cacheAfterAnalysis className resolverErrors validationErrors allFollows c
        thrown := some (aggregateDefErrorsMessage
          (totalDefErrors className resolverErrors validationErrors c))
        validatorRan := resolverErrors.isEmpty
        followsStored := false }
    else if !((cacheAfterAnalysis className resolverErrors validationErrors allFollows
        c).defErrors className).isEmpty && !deferHandling then
      { cache := cacheAfterAnalysis className resolverErrors validationErrors allFollows c
        thrown := some (aggregateDefErrorsMessage
          ((cacheAfterAnalysis className resolverErrors validationErrors allFollows
            c).defErrors className))
        validatorRan := resolverErrors.isEmpty
        followsStored := (totalDefErrors className resolverErrors validationErrors c).isEmpty }
    else
      { cache := cacheAfterAnalysis className resolverErrors validationErrors allFollows c
        thrown := none
        validatorRan := resolverErrors.isEmpty
        followsStored := (totalDefErrors className resolverErrors validationErrors c).isEmpty }

/-- C8: the validator runs only when the resolver produced zero errors;
FOLLOW sets are computed and stored only when the total definition-error
list is empty; with deferral disabled a single aggregated fatal error is
raised whenever definition errors exist; and every later construction of
the same class re-raises that same aggregated error without re-running
the analysis and without touching the cache. -/
theorem performSelfAnalysis_spec {F : Type} (className : String)
    (resolverErrors validationErrors : List ParserDefinitionError)
    (allFollows : F) (c : AnalysisCache F)
    (hname : className ≠ "")
    (hnew : className ∉ c.selfAnalysisDone) :
    (performSelfAnalysis className resolverErrors validationErrors allFollows false
      c).validatorRan = resolverErrors.isEmpty ∧
    (performSelfAnalysis className resolverErrors validationErrors allFollows false
      c).followsStored =
      (totalDefErrors className resolverErrors validationErrors c).isEmpty ∧
    ((performSelfAnalysis className resolverErrors validationErrors allFollows false
        c).followsStored = true →
      (performSelfAnalysis className resolverErrors validationErrors allFollows false
        c).cache.resyncFollows className = some allFollows) ∧
    (totalDefErrors className resolverErrors validationErrors c ≠ [] →
      (performSelfAnalysis className resolverErrors validationErrors allFollows false
        c).thrown = some (aggregateDefErrorsMessage
          (totalDefErrors className resolverErrors validationErrors c))) ∧
    (∀ (resolverErrors2 validationErrors2 : List ParserDefinitionError) (allFollows2 : F),
      (performSelfAnalysis className resolverErrors2 validationErrors2 allFollows2 false
        (performSelfAnalysis className resolverErrors validationErrors allFollows false
          c).cache).cache =
        (performSelfAnalysis className resolverErrors validationErrors allFollows false
          c).cache ∧
      (performSelfAnalysis className resolverErrors2 validationErrors2 allFollows2 false
        (performSelfAnalysis className resolverErrors validationErrors allFollows false
          c).cache).thrown =
        (performSelfAnalysis className resolverErrors validationErrors allFollows false
          c).thrown ∧
      (performSelfAnalysis className resolverErrors2 validationErrors2 allFollows2 false
        (performSelfAnalysis className resolverErrors validationErrors allFollows false
          c).cache).validatorRan = false ∧
      (performSelfAnalysis className resolverErrors2 validationErrors2 allFollows2 false
        (performSelfAnalysis className resolverErrors validationErrors allFollows false
          c).cache).followsStored = false) := by
  by_cases he : (totalDefErrors className resolverErrors validationErrors c).isEmpty
  · refine ⟨?_, ?_, ?_, ?_, ?_⟩ <;>
      simp [performSelfAnalysis, cacheAfterAnalysis, hname, hnew, he] <;>
      simp [List.isEmpty_iff] at he <;>
      simp [he]
  · refine ⟨?_, ?_, ?_, ?_, ?_⟩ <;>
      simp [performSelfAnalysis, cacheAfterAnalysis, hname, hnew, he]

/-- A fresh per-class cache for the concrete self-analysis scenario. -/
def cacheW : AnalysisCache Nat := {}

/-- Witness for C8 at a concrete erroneous grammar class. -/
theorem performSelfAnalysis_spec_witness :
    ("JsonParser" : String) ≠ "" ∧
    "JsonParser" ∉ cacheW.selfAnalysisDone ∧
    (performSelfAnalysis "JsonParser" [] [⟨"duplicate rule"⟩] (7 : Nat) false
      cacheW).validatorRan = ([] : List ParserDefinitionError).isEmpty ∧
    (performSelfAnalysis "JsonParser" [] [⟨"duplicate rule"⟩] (7 : Nat) false
      cacheW).thrown = some (aggregateDefErrorsMessage
        (totalDefErrors "JsonParser" [] [⟨"duplicate rule"⟩] cacheW)) ∧
    (performSelfAnalysis "JsonParser" [] [] (0 : Nat) false
      (performSelfAnalysis "JsonParser" [] [⟨"duplicate rule"⟩] (7 : Nat) false
        cacheW).cache).thrown =
      (performSelfAnalysis "JsonParser" [] [⟨"duplicate rule"⟩] (7 : Nat) false
        cacheW).thrown :=
  ⟨by decide, by decide,
    (performSelfAnalysis_spec "JsonParser" [] [⟨"duplicate rule"⟩] 7 cacheW
      (by decide) (by decide)).1,
    (performSelfAnalysis_spec "JsonParser" [] [⟨"duplicate rule"⟩] 7 cacheW
      (by decide) (by decide)).2.2.2.1 (by decide),
    ((performSelfAnalysis_spec "JsonParser" [] [⟨"duplicate rule"⟩] 7 cacheW
      (by decide) (by decide)).2.2.2.2 [] [] 0).2.1⟩

/-! ## GAST productions and the clone visitor (`grammar/gast.ts`) -/

namespace gast

/-- The tagged variants of the grammar AST (`gast_public.ts`).  A
NonTerminal carries its (optional) resolved rule reference. -/
inductive Production where
  | rule (name : String) (definition : List Production) (orgText : String)
  | flat (definition : List Production)
  | nonTerminal (nonTerminalName : String) (referencedRule : Option Production)
      (occurrenceInParent : Nat)
  | terminal (terminalType : Nat) (occurrenceInParent : Nat)
  | option (definition : List Production) (occurrenceInParent : Nat)
  | repetition (definition : List Production) (occurrenceInParent : Nat)
  | repetitionMandatory (definition : List Production) (occurrenceInParent : Nat)
  | repetitionMandatoryWithSeparator (definition : List Production) (separator : Nat)
      (occurrenceInParent : Nat)
  | repetitionWithSeparator (definition : List Production) (separator : Nat)
      (occurrenceInParent : Nat)
  | alternation (definition : List Production) (occurrenceInParent : Nat)

mutual

/-- The `GastCloneVisitor` of `grammar/gast.ts`: a deep copy that keeps
names, occurrence indices, separators and `orgText`, and passes
`undefined` for the NonTerminal rule reference. -/
def cloneProduction : Production → Production
  | .rule n d org => .rule n (cloneList d) org
  | .flat d => .flat (cloneList d)
  | .nonTerminal n _ occ => .nonTerminal n none occ
  | .terminal t occ => .terminal t occ
  | .option d occ => .option (cloneList d) occ
  | .repetition d occ => .repetition (cloneList d) occ
  | .repetitionMandatory d occ => .repetitionMandatory (cloneList d) occ
  | .repetitionMandatoryWithSeparator d sep occ =>
    .repetitionMandatoryWithSeparator (cloneList d) sep occ
  | .repetitionWithSeparator d sep occ =>
    .repetitionWithSeparator (cloneList d) sep occ
  | .alternation d occ => .alternation (cloneList d) occ

/-- Clone every child of a definition sequence (the `map` over
`node.definition`). -/
def cloneList : List Production → List Production
  | [] => []
  | p :: ps => cloneProduction p :: cloneList ps

end

mutual

/-- Structural equality of productions: same variant, same child order,
same names, occurrence indices, separators and original text; the
NonTerminal rule reference is not compared. -/
def structEq : Production → Production → Bool
  | .rule n d org, .rule n2 d2 org2 => n == n2 && structEqList d d2 && org == org2
  | .flat d, .flat d2 => structEqList d d2
  | .nonTerminal n _ occ, .nonTerminal n2 _ occ2 => n == n2 && occ == occ2
  | .terminal t occ, .terminal t2 occ2 => t == t2 && occ == occ2
  | .option d occ, .option d2 occ2 => structEqList d d2 && occ == occ2
  | .repetition d occ, .repetition d2 occ2 => structEqList d d2 && occ == occ2
  | .repetitionMandatory d occ, .repetitionMandatory d2 occ2 =>
    structEqList d d2 && occ == occ2
  | .repetitionMandatoryWithSeparator d sep occ,
      .repetitionMandatoryWithSeparator d2 sep2 occ2 =>
    structEqList d d2 && sep == sep2 && occ == occ2
  | .repetitionWithSeparator d sep occ, .repetitionWithSeparator d2 sep2 occ2 =>
    structEqList d d2 && sep == sep2 && occ == occ2
  | .alternation d occ, .alternation d2 occ2 => structEqList d d2 && occ == occ2
  | _, _ => false

/-- Pointwise structural equality of definition sequences. -/
def structEqList : List Production → List Production → Bool
  | [], [] => true
  | p :: ps, q :: qs => structEq p q && structEqList ps qs
  | _, _ => false

end

mutual

/-- Every NonTerminal in the tree has its rule reference unset. -/
def refsCleared : Production → Bool
  | .rule _ d _ => refsClearedList d
  | .flat d => refsClearedList d
  | .nonTerminal _ r _ => r.isNone
  | .terminal _ _ => true
  | .option d _ => refsClearedList d
  | .repetition d _ => refsClearedList d
  | .repetitionMandatory d _ => refsClearedList d
  | .repetitionMandatoryWithSeparator d _ _ => refsClearedList d
  | .repetitionWithSeparator d _ _ => refsClearedList d
  | .alternation d _ => refsClearedList d

/-- `refsCleared` over a definition sequence. -/
def refsClearedList : List Production → Bool
  | [] => true
  | p :: ps => refsCleared p && refsClearedList ps

end

mutual

/-- The clone is structurally equal to the original. -/
theorem structEq_cloneProduction : (p : Production) → structEq p (cloneProduction p) = true
  | .rule n d org => by
    simp [cloneProduction, structEq, structEqList_cloneList d]
  | .flat d => by simp [cloneProduction, structEq, structEqList_cloneList d]
  | .nonTerminal n r occ => by simp [cloneProduction, structEq]
  | .terminal t occ => by simp [cloneProduction, structEq]
  | .option d occ => by simp [cloneProduction, structEq, structEqList_cloneList d]
  | .repetition d occ => by simp [cloneProduction, structEq, structEqList_cloneList d]
  | .repetitionMandatory d occ => by
    simp [cloneProduction, structEq, structEqList_cloneList d]
  | .repetitionMandatoryWithSeparator d sep occ => by
    simp [cloneProduction, structEq, structEqList_cloneList d]
  | .repetitionWithSeparator d sep occ => by
    simp [cloneProduction, structEq, structEqList_cloneList d]
  | .alternation d occ => by simp [cloneProduction, structEq, structEqList_cloneList d]

/-- Cloned definition sequences are pointwise structurally equal. -/
theorem structEqList_cloneList : (l : List Production) → structEqList l (cloneList l) = true
  | [] => by simp [cloneList, structEqList]
  | p :: ps => by
    simp [cloneList, structEqList, structEq_cloneProduction p, structEqList_cloneList ps]

end

mutual

/-- Every NonTerminal of a clone has its rule reference unset. -/
theorem refsCleared_cloneProduction : (p : Production) → refsCleared (cloneProduction p) = true
  | .rule n d org => by simp [cloneProduction, refsCleared, refsClearedList_cloneList d]
  | .flat d => by simp [cloneProduction, refsCleared, refsClearedList_cloneList d]
  | .nonTerminal n r occ => by simp [cloneProduction, refsCleared]
  | .terminal t occ => by simp [cloneProduction, refsCleared]
  | .option d occ => by simp [cloneProduction, refsCleared, refsClearedList_cloneList d]
  | .repetition d occ => by simp [cloneProduction, refsCleared, refsClearedList_cloneList d]
  | .repetitionMandatory d occ => by
    simp [cloneProduction, refsCleared, refsClearedList_cloneList d]
  | .repetitionMandatoryWithSeparator d sep occ => by
    simp [cloneProduction, refsCleared, refsClearedList_cloneList d]
  | .repetitionWithSeparator d sep occ => by
    simp [cloneProduction, refsCleared, refsClearedList_cloneList d]
  | .alternation d occ => by
    simp [cloneProduction, refsCleared, refsClearedList_cloneList d]

/-- `refsCleared_cloneProduction` over definition sequences. -/
theorem refsClearedList_cloneList : (l : List Production) → refsClearedList (cloneList l) = true
  | [] => by simp [cloneList, refsClearedList]
  | p :: ps => by
    simp [cloneList, refsClearedList, refsCleared_cloneProduction p,
      refsClearedList_cloneList ps]

end

/-- C9: `cloneProduction` returns a structurally equal deep copy (variant,
child order, occurrence indices and separator token types preserved), and
every NonTerminal of the clone has its resolved rule reference left
unset. -/
theorem cloneProduction_spec (p : Production) :
    structEq p (cloneProduction p) = true ∧ refsCleared (cloneProduction p) = true :=
  ⟨structEq_cloneProduction p, refsCleared_cloneProduction p⟩

end gast

end Chevrotain
